import Mathlib

/-!
Verification of the CP-MDP tensor solver (src/cp-mdp/pymdptoolbox/mdp.py).

A shallow embedding of the solver over exact rationals: machine floats are
modelled by elements of the rational numbers, numpy arrays by lists, and every
Python-level failure (assertion, TypeError, broadcast error, overflow in
float-to-int conversion) by an explicit error value in an Except monad.
Iteration loops of the source, which are while-loops bounded by an explicit
iteration counter, are embedded as structurally recursive functions on a fuel
argument equal to the remaining number of permitted iterations.
-/

set_option maxRecDepth 100000

/-- Python-level failures raised by the solver code. -/
inductive PyErr where
  /-- TypeError: wrong number of positional arguments in a call. -/
  | typeError
  /-- ValueError: bad array shape or value (reshape, split, initial value). -/
  | valueError
  /-- AssertionError: a failed assert statement in a constructor. -/
  | assertionError
  /-- OverflowError: converting an infinite float to an integer. -/
  | overflowError
  /-- ValueError from a failed numpy broadcast assignment. -/
  | broadcastError
  /-- IndexError: indexing an empty transition list. -/
  | indexError
  /-- Marker for the unreachable fuel-exhaustion case of an embedded loop:
      the corresponding Python loop would not have terminated. -/
  | nonTermination
deriving DecidableEq, Repr

/-- Boolean success test of an Except value. -/
def isOkE {ε α : Type} : Except ε α → Bool
  | .ok _ => true
  | .error _ => false

instance {ε α : Type} [DecidableEq ε] [DecidableEq α] : DecidableEq (Except ε α) := fun x y =>
  match x, y with
  | .error e, .error f =>
    if h : e = f then isTrue (by rw [h]) else isFalse (fun hh => h (by injection hh))
  | .error _, .ok _ => isFalse (fun hh => Except.noConfusion hh)
  | .ok _, .error _ => isFalse (fun hh => Except.noConfusion hh)
  | .ok a, .ok b =>
    if h : a = b then isTrue (by rw [h]) else isFalse (fun hh => h (by injection hh))

/-- Dot product of two equal-length vectors, as computed by numpy dot
    (summation over the elementwise products, exact over the rationals). -/
def dotQ (p v : List ℚ) : ℚ := ((p.zip v).map (fun x => x.1 * x.2)).sum

/-- Fancy indexing V[idx] of a value vector by a list of state indices. -/
def gather (V : List ℚ) (idx : List ℕ) : List ℚ := idx.map (fun i => V.getD i 0)

/-- Maximum of a list of rationals; numpy max of a nonempty array.  The empty
    case returns 0 and is never reached on the paths the claims concern. -/
def listMax : List ℚ → ℚ
  | [] => 0
  | x :: xs => xs.foldl max x

/-- Minimum of a list of rationals; numpy min of a nonempty array. -/
def listMin : List ℚ → ℚ
  | [] => 0
  | x :: xs => xs.foldl min x

/-- Index of the first occurrence of the maximum, as computed by numpy argmax
    (ties broken by the lowest index). -/
def argmaxQ : List ℚ → ℕ
  | [] => 0
  | [_] => 0
  | x :: y :: ys => if x < listMax (y :: ys) then argmaxQ (y :: ys) + 1 else 0

lemma foldl_max_max (l : List ℚ) : ∀ a b : ℚ, l.foldl max (max a b) = max a (l.foldl max b) := by
  induction l with
  | nil => intro a b; rfl
  | cons c l ih =>
    intro a b
    simp only [List.foldl]
    rw [max_assoc, ih]

lemma listMax_cons (x y : ℚ) (ys : List ℚ) :
    listMax (x :: y :: ys) = max x (listMax (y :: ys)) := by
  simp only [listMax, List.foldl]
  exact foldl_max_max ys x y

lemma getD_le_listMax (l : List ℚ) (i : ℕ) (hi : i < l.length) : l.getD i 0 ≤ listMax l := by
  induction l generalizing i with
  | nil => simp at hi
  | cons x xs ih =>
    cases xs with
    | nil =>
      simp only [List.length_cons, List.length_nil] at hi
      have : i = 0 := by omega
      subst this
      simp [listMax]
    | cons y ys =>
      rw [listMax_cons]
      cases i with
      | zero => simp only [List.getD]; exact le_max_left _ _
      | succ j =>
        have hj : j < (y :: ys).length := by
          simpa [Nat.succ_lt_succ_iff] using hi
        have := ih j hj
        calc (x :: y :: ys).getD (j + 1) 0 = (y :: ys).getD j 0 := by simp [List.getD]
        _ ≤ listMax (y :: ys) := this
        _ ≤ max x (listMax (y :: ys)) := le_max_right _ _

lemma argmaxQ_lt_length (l : List ℚ) (h : l ≠ []) : argmaxQ l < l.length := by
  induction l with
  | nil => exact absurd rfl h
  | cons x xs ih =>
    cases xs with
    | nil => simp [argmaxQ]
    | cons y ys =>
      simp only [argmaxQ]
      by_cases hx : x < listMax (y :: ys)
      · rw [if_pos hx]
        have h2 := ih (by simp)
        simp only [List.length_cons] at h2 ⊢
        omega
      · simp [if_neg hx]

lemma getD_argmaxQ (l : List ℚ) (h : l ≠ []) : l.getD (argmaxQ l) 0 = listMax l := by
  induction l with
  | nil => exact absurd rfl h
  | cons x xs ih =>
    cases xs with
    | nil => simp [argmaxQ, listMax]
    | cons y ys =>
      rw [listMax_cons]
      simp only [argmaxQ]
      by_cases hx : x < listMax (y :: ys)
      · rw [if_pos hx]
        have hm : max x (listMax (y :: ys)) = listMax (y :: ys) := max_eq_right (le_of_lt hx)
        rw [hm]
        have := ih (by simp)
        simpa [List.getD] using this
      · rw [if_neg hx]
        have hm : max x (listMax (y :: ys)) = x := max_eq_left (le_of_not_lt hx)
        simp [List.getD, hm]

lemma getD_lt_of_lt_argmaxQ (l : List ℚ) (i : ℕ) (hi : i < argmaxQ l) :
    l.getD i 0 < listMax l := by
  induction l generalizing i with
  | nil => simp [argmaxQ] at hi
  | cons x xs ih =>
    cases xs with
    | nil => simp [argmaxQ] at hi
    | cons y ys =>
      simp only [argmaxQ] at hi
      by_cases hx : x < listMax (y :: ys)
      · rw [if_pos hx] at hi
        rw [listMax_cons, max_eq_right (le_of_lt hx)]
        cases i with
        | zero => simpa [List.getD] using hx
        | succ j =>
          have hj : j < argmaxQ (y :: ys) := by omega
          have := ih j hj
          simpa [List.getD] using this
      · rw [if_neg hx] at hi
        simp at hi

/-- Solver state after MDP.\_\_init\_\_: dimensions, discount, the resolved
    reward R[a][s], and the per-action lists of per-state successor / probability
    chunks produced by np.split (split_succ_s, split_probability).  S is the
    flat length of one per-action successor array (succ_s[0].shape[0], as
    computed by \_computeDimensions), while states is the chunk count used for
    splitting and for every per-state loop. -/
structure MdpCore where
  S : ℕ
  A : ℕ
  states : ℕ
  discount : ℚ
  epsilon : ℚ
  maxIter : ℕ
  R : List (List ℚ)
  splitSucc : List (List (List ℕ))
  splitProb : List (List (List ℚ))
deriving DecidableEq, Repr

/-- Action value Q(s, a) = R[a][s] + discount * dot(split_probability[a][s],
    V[split_succ_s[a][s]]), the expression inside \_bellmanOperator. -/
def Qval (m : MdpCore) (V : List ℚ) (a s : ℕ) : ℚ :=
  (m.R.getD a []).getD s 0 +
    m.discount * dotQ ((m.splitProb.getD a []).getD s []) (gather V ((m.splitSucc.getD a []).getD s []))

/-- Column s of the Q matrix built by \_bellmanOperator: the action values of
    state s listed over a = 0 .. A-1.  The source fills Q row-by-row over
    actions and then reduces with argmax(axis=0)/max(axis=0), which reads
    exactly this column. -/
def QsList (m : MdpCore) (V : List ℚ) (s : ℕ) : List ℚ :=
  (List.range m.A).map (fun a => Qval m V a s)

/-- MDP.\_bellmanOperator: returns (Q.argmax(axis=0), Q.max(axis=0)), the
    greedy policy and the updated value function. -/
def bellmanOperator (m : MdpCore) (V : List ℚ) : List ℕ × List ℚ :=
  ((List.range m.states).map (fun s => argmaxQ (QsList m V s)),
   (List.range m.states).map (fun s => listMax (QsList m V s)))

lemma getD_map_range {α : Type} (f : ℕ → α) (n i : ℕ) (h : i < n) (d : α) :
    ((List.range n).map f).getD i d = f i := by
  rw [List.getD_eq_getElem?_getD]
  simp [List.getElem?_map, List.getElem?_range, h]

lemma length_map_range {α : Type} (f : ℕ → α) (n : ℕ) :
    ((List.range n).map f).length = n := by simp

lemma QsList_length (m : MdpCore) (V : List ℚ) (s : ℕ) : (QsList m V s).length = m.A := by
  simp [QsList]

lemma QsList_getD (m : MdpCore) (V : List ℚ) (s a : ℕ) (ha : a < m.A) :
    (QsList m V s).getD a 0 = Qval m V a s := getD_map_range _ _ _ ha _

lemma QsList_ne_nil (m : MdpCore) (V : List ℚ) (s : ℕ) (hA : 0 < m.A) :
    QsList m V s ≠ [] := by
  intro h
  have := QsList_length m V s
  rw [h] at this
  simp at this
  omega

lemma bellman_policy_length (m : MdpCore) (V : List ℚ) :
    (bellmanOperator m V).1.length = m.states := by simp [bellmanOperator]

lemma bellman_value_length (m : MdpCore) (V : List ℚ) :
    (bellmanOperator m V).2.length = m.states := by simp [bellmanOperator]

lemma bellman_policy_getD (m : MdpCore) (V : List ℚ) (s : ℕ) (hs : s < m.states) :
    (bellmanOperator m V).1.getD s 0 = argmaxQ (QsList m V s) := getD_map_range _ _ _ hs _

lemma bellman_value_getD (m : MdpCore) (V : List ℚ) (s : ℕ) (hs : s < m.states) :
    (bellmanOperator m V).2.getD s 0 = listMax (QsList m V s) := getD_map_range _ _ _ hs _

lemma bellman_policy_lt_A (m : MdpCore) (V : List ℚ) (s : ℕ) (hs : s < m.states)
    (hA : 0 < m.A) : (bellmanOperator m V).1.getD s 0 < m.A := by
  rw [bellman_policy_getD m V s hs]
  have := argmaxQ_lt_length (QsList m V s) (QsList_ne_nil m V s hA)
  rwa [QsList_length] at this

/-- Concrete two-state, two-action instance used by the C1 witness. -/
def coreC1 : MdpCore :=
  { S := 2, A := 2, states := 2, discount := 1/2, epsilon := 1/100, maxIter := 10,
    R := [[1, 0], [0, 2]],
    splitSucc := [[[0], [0]], [[1], [1]]],
    splitProb := [[[1], [1]], [[1], [1]]] }

/-- C1: for every solver state and every value function V of the stored
    per-state length, \_bellmanOperator returns (policy, value) where, for every
    state s, value[s] is the maximum over actions of Q(s,a) (attained at
    policy[s]), policy[s] is a valid action index, no action beats value[s],
    and every action index below policy[s] is strictly worse: the argmax tie is
    broken by the lowest action index. -/
theorem c1_bellman_operator (m : MdpCore) (V : List ℚ) (hA : 0 < m.A)
    (hV : V.length = m.states) (s : ℕ) (hs : s < m.states) :
    (bellmanOperator m V).2.getD s 0 = Qval m V ((bellmanOperator m V).1.getD s 0) s ∧
    (bellmanOperator m V).1.getD s 0 < m.A ∧
    (∀ a, a < m.A → Qval m V a s ≤ (bellmanOperator m V).2.getD s 0) ∧
    ∀ a, a < (bellmanOperator m V).1.getD s 0 → Qval m V a s < (bellmanOperator m V).2.getD s 0 := by
  have hp := bellman_policy_getD m V s hs
  have hv := bellman_value_getD m V s hs
  have hne := QsList_ne_nil m V s hA
  have hlt := bellman_policy_lt_A m V s hs hA
  refine ⟨?_, hlt, ?_, ?_⟩
  · rw [hv, hp]
    rw [hp] at hlt
    rw [← QsList_getD m V s _ hlt]
    exact (getD_argmaxQ _ hne).symm
  · intro a ha
    rw [hv, ← QsList_getD m V s a ha]
    refine getD_le_listMax _ a ?_
    rw [QsList_length]
    exact ha
  · intro a ha
    rw [hp] at ha hlt
    have haA : a < m.A := lt_trans ha hlt
    rw [hv, ← QsList_getD m V s a haA]
    exact getD_lt_of_lt_argmaxQ _ a ha

/-- Witness for C1 at a concrete two-state instance with V = [1, 2]. -/
theorem c1_bellman_operator_witness :
    0 < coreC1.A ∧ ([1, 2] : List ℚ).length = coreC1.states ∧ 0 < coreC1.states ∧
    ((bellmanOperator coreC1 [1, 2]).2.getD 0 0 =
        Qval coreC1 [1, 2] ((bellmanOperator coreC1 [1, 2]).1.getD 0 0) 0 ∧
      (bellmanOperator coreC1 [1, 2]).1.getD 0 0 < coreC1.A ∧
      (∀ a, a < coreC1.A → Qval coreC1 [1, 2] a 0 ≤ (bellmanOperator coreC1 [1, 2]).2.getD 0 0) ∧
      ∀ a, a < (bellmanOperator coreC1 [1, 2]).1.getD 0 0 →
        Qval coreC1 [1, 2] a 0 < (bellmanOperator coreC1 [1, 2]).2.getD 0 0) :=
  ⟨by decide, by decide, by decide,
    c1_bellman_operator coreC1 [1, 2] (by decide) (by decide) 0 (by decide)⟩

/-- Reward argument forms accepted by MDP.\_computeReward.  The 1-D vector and
    2-D (S, A) matrix forms are modelled; the per-action matrix form (the
    ndim 3 / length-A dispatch branch) is not needed by any claim and is left
    out of the model.  Sparse rewards raise NotImplementedError in the source
    and are likewise outside the model, which covers the dense forms only. -/
inductive RewardInput where
  | vec (r : List ℚ)
  | mat (rows : List (List ℚ))
deriving DecidableEq, Repr

/-- MDP.\_computeVectorReward on a dense 1-D reward: reshape to length states
    (a ValueError when the length disagrees) and reuse the same vector for
    every action: tuple(r for a in range(A)). -/
def computeVectorReward (states A : ℕ) (r : List ℚ) : Except PyErr (List (List ℚ)) :=
  if r.length = states then .ok (List.replicate A r) else .error .valueError

/-- MDP.\_computeArrayReward on a dense 2-D reward shaped (states, A): column a
    becomes reward[a].  Column extraction reward[:, a] needs every row to reach
    width A and the reshape needs exactly states rows. -/
def computeArrayReward (states A : ℕ) (rows : List (List ℚ)) : Except PyErr (List (List ℚ)) :=
  if rows.length = states ∧ ∀ row ∈ rows, A ≤ row.length then
    .ok ((List.range A).map (fun a => rows.map (fun row => row.getD a 0)))
  else .error .valueError

/-- MDP.\_computeReward shape dispatch on the modelled dense forms: ndim 1 goes
    to the vector path, ndim 2 to the array path. -/
def mdpComputeReward (states A : ℕ) : RewardInput → Except PyErr (List (List ℚ))
  | .vec r => computeVectorReward states A r
  | .mat rows => computeArrayReward states A rows

/-- np.split of a flat array into n equal chunks; a ValueError when the length
    is not divisible by n (or n is zero). -/
def npSplit {α : Type} (l : List α) (n : ℕ) : Except PyErr (List (List α)) :=
  if n = 0 then .error .valueError
  else if l.length % n ≠ 0 then .error .valueError
  else .ok ((List.range n).map (fun i => ((l.drop (i * (l.length / n))).take (l.length / n))))

/-- MDP.\_\_init\_\_: validate discount, max_iter and epsilon, compute (S, A)
    from the transition structure (\_computeDimensions reads len(transition)
    and transition[0].shape[0]), resolve the reward, and split each per-action
    flat successor / probability array into `states` chunks. -/
def mdpInit (succFlat : List (List ℕ)) (probFlat : List (List ℚ)) (R : RewardInput)
    (states : ℕ) (discount epsilon : ℚ) (maxIter : ℕ) : Except PyErr MdpCore :=
  if ¬ (0 < discount ∧ discount ≤ 1) then .error .assertionError
  else if ¬ (0 < maxIter) then .error .assertionError
  else if ¬ (0 < epsilon) then .error .assertionError
  else if succFlat.length = 0 then .error .indexError
  else do
    let A := succFlat.length
    let S := (succFlat.getD 0 []).length
    let Rres ← mdpComputeReward states A R
    let splitSucc ← succFlat.mapM (fun l => npSplit l states)
    let splitProb ← probFlat.mapM (fun l => npSplit l states)
    .ok { S := S, A := A, states := states, discount := discount, epsilon := epsilon,
          maxIter := maxIter, R := Rres, splitSucc := splitSucc, splitProb := splitProb }

/-- C9: resolving a dense 1-D reward vector of length S yields
    reward[a][s] = r[s] for every action a < A and state s < S: the same vector
    is reused for every action.  The embedding is purely functional, so the
    resolved reward is immutable thereafter, as the source keeps self.R
    untouched after construction. -/
theorem c9_vector_reward_roundtrip (S A : ℕ) (r : List ℚ) (hr : r.length = S) :
    ∃ rr, mdpComputeReward S A (.vec r) = .ok rr ∧ rr.length = A ∧
      ∀ a, a < A → ∀ s, s < S → (rr.getD a []).getD s 0 = r.getD s 0 := by
  refine ⟨List.replicate A r, ?_, ?_, ?_⟩
  · simp [mdpComputeReward, computeVectorReward, hr]
  · simp
  · intro a ha s _
    rw [List.getD_eq_getElem?_getD]
    simp [List.getElem?_replicate, ha]

/-- Witness for C9: a length-3 reward vector, two actions. -/
theorem c9_vector_reward_roundtrip_witness :
    ([5, 7, 11] : List ℚ).length = 3 ∧
    ∃ rr, mdpComputeReward 3 2 (.vec [5, 7, 11]) = .ok rr ∧ rr.length = 2 ∧
      ∀ a, a < 2 → ∀ s, s < 3 → (rr.getD a []).getD s 0 = ([5, 7, 11] : List ℚ).getD s 0 :=
  ⟨by decide, c9_vector_reward_roundtrip 3 2 [5, 7, 11] (by decide)⟩

/-- Solver state after CpMdpPolicyIteration.\_\_init\_\_. -/
structure PiState where
  core : MdpCore
  policy : List ℕ
  V : List ℚ
deriving DecidableEq, Repr

/-- Whether a float holds an integral value: np.mod(x, 1) == 0. -/
def isIntegral (x : ℚ) : Prop := x.den = 1

instance (x : ℚ) : Decidable (isIntegral x) := by unfold isIntegral; infer_instance

/-- CpMdpPolicyIteration.\_\_init\_\_: run MDP.\_\_init\_\_, then either build the
    initial policy from one Bellman backup on a zero value function, or adopt
    the caller-supplied policy0 after asserting its shape is (S,), its entries
    are integral, nonnegative, and below S — where S is self.S, the flat
    per-action successor-array length.  V is initialised to zeros(states). -/
def piInit (succFlat : List (List ℕ)) (probFlat : List (List ℚ)) (R : RewardInput)
    (states : ℕ) (discount epsilon : ℚ) (policy0 : Option (List ℚ)) (maxIter : ℕ) :
    Except PyErr PiState :=
  match mdpInit succFlat probFlat R states discount epsilon maxIter with
  | .error e => .error e
  | .ok core =>
    match policy0 with
    | none =>
      .ok { core := core,
            policy := (bellmanOperator core (List.replicate core.states 0)).1,
            V := List.replicate core.states 0 }
    | some p =>
      if p.length = core.S ∧ (∀ x ∈ p, isIntegral x) ∧ (∀ x ∈ p, 0 ≤ x) ∧
          (∀ x ∈ p, x < (core.S : ℚ)) then
        .ok { core := core, policy := p.map (fun x => x.num.toNat),
              V := List.replicate core.states 0 }
      else .error .assertionError

/-- C5 (amended): with a caller-supplied policy0 and otherwise-valid
    constructor arguments, construction succeeds — adopting policy0 unchanged —
    exactly when policy0 has length self.S, every entry is integral, and every
    entry lies in [0, self.S); it fails with the assertion error otherwise.
    The validation bound is self.S, the flat per-action successor-array length,
    not the number of actions A as the original claim stated. -/
theorem c5_policy0_validation (succFlat : List (List ℕ)) (probFlat : List (List ℚ))
    (R : RewardInput) (states : ℕ) (discount epsilon : ℚ) (maxIter : ℕ) (core : MdpCore)
    (hcore : mdpInit succFlat probFlat R states discount epsilon maxIter = .ok core)
    (p : List ℚ) :
    (piInit succFlat probFlat R states discount epsilon (some p) maxIter =
        .ok { core := core, policy := p.map (fun x => x.num.toNat),
              V := List.replicate core.states 0 } ↔
      (p.length = core.S ∧ (∀ x ∈ p, isIntegral x) ∧ (∀ x ∈ p, 0 ≤ x) ∧
        (∀ x ∈ p, x < (core.S : ℚ)))) ∧
    (piInit succFlat probFlat R states discount epsilon (some p) maxIter =
        .error .assertionError ↔
      ¬ (p.length = core.S ∧ (∀ x ∈ p, isIntegral x) ∧ (∀ x ∈ p, 0 ≤ x) ∧
        (∀ x ∈ p, x < (core.S : ℚ)))) := by
  have hred : piInit succFlat probFlat R states discount epsilon (some p) maxIter =
      (if p.length = core.S ∧ (∀ x ∈ p, isIntegral x) ∧ (∀ x ∈ p, 0 ≤ x) ∧
          (∀ x ∈ p, x < (core.S : ℚ)) then
        Except.ok { core := core, policy := p.map (fun x => x.num.toNat),
                    V := List.replicate core.states 0 }
      else Except.error PyErr.assertionError) := by
    unfold piInit
    rw [hcore]
  rw [hred]
  by_cases h : p.length = core.S ∧ (∀ x ∈ p, isIntegral x) ∧ (∀ x ∈ p, 0 ≤ x) ∧
      (∀ x ∈ p, x < (core.S : ℚ))
  · rw [if_pos h]
    exact ⟨iff_of_true rfl h, iff_of_false (by simp) (not_not_intro h)⟩
  · rw [if_neg h]
    exact ⟨iff_of_false (by simp) h, iff_of_true rfl h⟩

/-- Witness for C5 (amended): a valid policy0 = [1, 0, 2] is adopted unchanged
    on a three-state, two-action instance with branching factor 1. -/
theorem c5_policy0_validation_witness :
    mdpInit [[0, 1, 2], [0, 1, 2]] [[1, 1, 1], [1, 1, 1]] (.vec [0, 0, 0]) 3
        (1/2) (1/100) 1000 =
      .ok { S := 3, A := 2, states := 3, discount := 1/2, epsilon := 1/100,
            maxIter := 1000, R := [[0, 0, 0], [0, 0, 0]],
            splitSucc := [[[0], [1], [2]], [[0], [1], [2]]],
            splitProb := [[[1], [1], [1]], [[1], [1], [1]]] } ∧
    (piInit [[0, 1, 2], [0, 1, 2]] [[1, 1, 1], [1, 1, 1]] (.vec [0, 0, 0]) 3
        (1/2) (1/100) (some [1, 0, 2]) 1000 =
      .ok { core := { S := 3, A := 2, states := 3, discount := 1/2, epsilon := 1/100,
                      maxIter := 1000, R := [[0, 0, 0], [0, 0, 0]],
                      splitSucc := [[[0], [1], [2]], [[0], [1], [2]]],
                      splitProb := [[[1], [1], [1]], [[1], [1], [1]]] },
            policy := ([1, 0, 2] : List ℚ).map (fun x => x.num.toNat),
            V := List.replicate 3 0 } ↔
      (([1, 0, 2] : List ℚ).length = 3 ∧ (∀ x ∈ ([1, 0, 2] : List ℚ), isIntegral x) ∧
        (∀ x ∈ ([1, 0, 2] : List ℚ), 0 ≤ x) ∧
        (∀ x ∈ ([1, 0, 2] : List ℚ), x < ((3 : ℕ) : ℚ)))) := by
  refine ⟨by with_unfolding_all decide, ?_⟩
  have h := c5_policy0_validation [[0, 1, 2], [0, 1, 2]] [[1, 1, 1], [1, 1, 1]]
    (.vec [0, 0, 0]) 3 (1/2) (1/100) 1000
    { S := 3, A := 2, states := 3, discount := 1/2, epsilon := 1/100,
      maxIter := 1000, R := [[0, 0, 0], [0, 0, 0]],
      splitSucc := [[[0], [1], [2]], [[0], [1], [2]]],
      splitProb := [[[1], [1], [1]], [[1], [1], [1]]] } (by with_unfolding_all decide) [1, 0, 2]
  exact h.1

/-- Counterexample for C5 as stated: on the same instance (A = 2 actions, three
    states, branching factor 1, so self.S = 3) the policy0 = [2, 2, 2] has every
    entry outside [0, A) = [0, 2), yet construction succeeds and adopts it —
    the source only checks entries against S = 3. -/
theorem c5_counterexample :
    Except.map (fun st => st.policy)
        (piInit [[0, 1, 2], [0, 1, 2]] [[1, 1, 1], [1, 1, 1]] (.vec [0, 0, 0]) 3
          (1/2) (1/100) (some [2, 2, 2]) 1000) = .ok [2, 2, 2] ∧
    Except.map (fun st => st.core.A)
        (piInit [[0, 1, 2], [0, 1, 2]] [[1, 1, 1], [1, 1, 1]] (.vec [0, 0, 0]) 3
          (1/2) (1/100) (some [2, 2, 2]) 1000) = .ok 2 ∧
    ¬ ((2 : ℕ) < 2) := by
  refine ⟨by with_unfolding_all decide, by with_unfolding_all decide, by decide⟩

/-- Number of positional parameters of MDP.\_\_init\_\_ after self: shape,
    terminals, obstacles, succ_s, probability_s, R, states, discount, epsilon,
    max_iter — none of them has a default. -/
def mdpInitParamCount : ℕ := 10

/-- Number of positional arguments that CpMdpValueIteration.\_\_init\_\_ passes
    to MDP.\_\_init\_\_ after self: transitions, reward, shape, succ_s,
    discount, epsilon, max_iter. -/
def viInitArgCount : ℕ := 7

/-- CpMdpValueIteration.\_\_init\_\_.  The constructor body begins with
    MDP.\_\_init\_\_(self, transitions, reward, shape, succ_s, discount,
    epsilon, max_iter): seven positional arguments for a method whose
    signature requires ten, so Python raises TypeError (missing the positional
    arguments discount, epsilon and max_iter) before any attribute of the
    solver is initialised; the remainder of the constructor — the initial
    value check, \_boundIter and the threshold computation — is unreachable. -/
def viInit (transitions : List (List ℕ)) (reward : RewardInput) (shape : List ℕ)
    (succFlat : List (List ℕ)) (discount epsilon : ℚ) (maxIter : ℕ)
    (initialValue : Option (List ℚ)) : Except PyErr Unit :=
  if viInitArgCount < mdpInitParamCount then .error .typeError
  else .ok ()

/-- C2: constructing CpMdpValueIteration never succeeds — the super-call
    supplies 7 of MDP.\_\_init\_\_'s 10 required positional arguments, so every
    construction raises TypeError before the maxIter bound or the threshold is
    computed.  The claim's described behaviour (span-based maxIter override,
    threshold epsilon*(1-discount)/discount) is dead code in this class. -/
theorem c2_vi_init_always_type_error (transitions : List (List ℕ)) (reward : RewardInput)
    (shape : List ℕ) (succFlat : List (List ℕ)) (discount epsilon : ℚ) (maxIter : ℕ)
    (initialValue : Option (List ℚ)) :
    viInit transitions reward shape succFlat discount epsilon maxIter initialValue =
      .error .typeError ∧ viInitArgCount < mdpInitParamCount := by
  exact ⟨rfl, by decide⟩

/-- getSpan: span(array) = max(array) - min(array). -/
def getSpan (l : List ℚ) : ℚ := listMax l - listMin l

/-- Exact model of int(ceil(log(x) / log(b))) for 0 < b < 1 and x > 0: the
    least n with b^n ≤ x, found by bounded search (the real value is negative
    when x ≥ 1, and int(ceil(.)) of the float computation may differ by one
    from the exact value because of float rounding; no verified claim depends
    on this branch, only on the error branch of boundIter). -/
def leastPowLe (b x : ℚ) : ℕ → ℕ → ℕ
  | 0, n => n
  | fuel + 1, n => if b ^ n ≤ x then n else leastPowLe b x fuel (n + 1)

/-- CpMdpValueIteration.\_boundIter (inherited by the Gauss-Seidel class):
    k = 1 - sum(zeros) = 1, Vprev = self.V, one Bellman backup from self.V,
    span = getSpan(value - Vprev), then
    max_iter = ceil(log(threshold / span) / log(discount * k)).
    When span = 0, threshold / span is the float infinity, the quotient of the
    logs is -inf, and int(math.ceil(-inf)) raises OverflowError.  The embedding
    returns that error exactly when span = 0. -/
def boundIter (m : MdpCore) (V : List ℚ) (epsilon : ℚ) : Except PyErr ℕ :=
  let value := (bellmanOperator m V).2
  let span := getSpan (List.zipWith (fun a b => a - b) value V)
  if span = 0 then .error .overflowError
  else .ok (leastPowLe m.discount ((epsilon * (1 - m.discount) / m.discount) / span) 1000000 0)

/-- Solver state after CpMdpValueIterationGS.\_\_init\_\_. -/
structure GsState where
  core : MdpCore
  V : List ℚ
  thresh : ℚ
deriving DecidableEq, Repr

/-- CpMdpValueIterationGS.\_\_init\_\_: run MDP.\_\_init\_\_ (this subclass
    passes all ten arguments), set V from initial_value (zeros(states) when
    absent, otherwise a length-states vector), and for discount < 1 override
    max_iter with the \_boundIter bound and set
    thresh = epsilon * (1 - discount) / discount; for discount = 1,
    thresh = epsilon. -/
def gsInit (succFlat : List (List ℕ)) (probFlat : List (List ℚ)) (R : RewardInput)
    (states : ℕ) (discount epsilon : ℚ) (maxIter : ℕ) (initialValue : Option (List ℚ)) :
    Except PyErr GsState :=
  match mdpInit succFlat probFlat R states discount epsilon maxIter with
  | .error e => .error e
  | .ok core =>
    match (match initialValue with
           | none => Except.ok (List.replicate core.states (0 : ℚ))
           | some v => if v.length = core.states then Except.ok v
                       else Except.error PyErr.valueError) with
    | .error e => .error e
    | .ok V =>
      if core.discount < 1 then
        match boundIter core V epsilon with
        | .error e => .error e
        | .ok mi =>
          .ok { core := { core with maxIter := mi }, V := V,
                thresh := epsilon * (1 - core.discount) / core.discount }
      else
        .ok { core := core, V := V, thresh := epsilon }

/-- C8: on the single-state, single-action MDP with self-loop probability 1,
    reward 5, discount 0.5 and the default epsilon 0.01, the solve never
    completes: already the Gauss-Seidel constructor fails, because the one-step
    span max(V1-V0) - min(V1-V0) of a one-state value vector is 0, the
    analytic bound divides by it, and int(math.ceil(-inf)) raises
    OverflowError.  (The plain value-iteration class cannot even reach
    \_boundIter: its super-call raises TypeError, see C2.)  No value function
    or policy is ever produced, against the claimed convergence to V = 10,
    policy = [0]. -/
theorem c8_single_state_bound_overflow :
    gsInit [[0]] [[1]] (.vec [5]) 1 (1/2) (1/100) 10 none = .error .overflowError ∧
    getSpan (List.zipWith (fun a b => a - b)
      (bellmanOperator { S := 1, A := 1, states := 1, discount := 1/2, epsilon := 1/100,
                         maxIter := 10, R := [[5]], splitSucc := [[[0]]],
                         splitProb := [[[1]]] } [0]).2 [0]) = 0 := by
  exact ⟨by with_unfolding_all decide, by with_unfolding_all decide⟩

/-- A numpy per-row mask assignment target[ind] = source[ind] where target rows
    have width w: an exact-width source row is copied, a width-1 source row is
    silently broadcast (replicated) across the w slots, and any other width
    raises a broadcast ValueError. -/
def broadcastRow {α : Type} (w : ℕ) (row : List α) : Except PyErr (List α) :=
  if row.length = w then .ok row
  else match row with
    | [x] => .ok (List.replicate w x)
    | _ => .error .broadcastError

/-- CpMdpPolicyIteration.\_computePpolicyPRpolicy: allocate zero arrays of
    states * (A - 1) entries, split into states rows of width A - 1, and for
    every action a assign the rows of states whose policy entry equals a from
    split_succ_s[a] / split_probability[a] (with numpy broadcast semantics,
    see broadcastRow), together with Rpolicy from R[a].  A state whose policy
    entry is not a valid action index is never selected by any mask and keeps
    its zero-filled rows and zero reward.  The result is presented per state as
    (Rpolicy[s], succ row, prob row); policy entries are read for
    s < states, matching the shapes arising in every run of the solver. -/
def policyRowAt (m : MdpCore) (policy : List ℕ) (s : ℕ) :
    Except PyErr (ℚ × List ℕ × List ℚ) :=
  if policy.getD s 0 < m.A then
    match broadcastRow (m.A - 1) ((m.splitSucc.getD (policy.getD s 0) []).getD s []),
          broadcastRow (m.A - 1) ((m.splitProb.getD (policy.getD s 0) []).getD s []) with
    | .ok r, .ok p => .ok ((m.R.getD (policy.getD s 0) []).getD s 0, r, p)
    | .error e, _ => .error e
    | .ok _, .error e => .error e
  else
    .ok (0, List.replicate (m.A - 1) 0, List.replicate (m.A - 1) 0)

/-- The whole per-state assignment, sequenced over the states. -/
def computePpolicyPRpolicy (m : MdpCore) (policy : List ℕ) :
    Except PyErr (List (ℚ × List ℕ × List ℚ)) :=
  (List.range m.states).mapM (policyRowAt m policy)

/-- Variation np.absolute(a - b).max() over two equal-length vectors. -/
def maxAbsDiff (a b : List ℚ) : ℚ := listMax ((a.zip b).map (fun x => |x.1 - x.2|))

/-- One synchronous fixed-policy backup: the list comprehension
    policy_V = [policy_R[s] + discount * dot(probabilities_s[s], Vprev[succ_s[s]])
    for s in range(states)], computed wholly from Vprev. -/
def evalStep (discount : ℚ) (rows : List (ℚ × List ℕ × List ℚ)) (states : ℕ)
    (V : List ℚ) : List ℚ :=
  (List.range states).map (fun s =>
    (rows.getD s (0, [], [])).1 +
      discount * dotQ (rows.getD s (0, [], [])).2.2 (gather V (rows.getD s (0, [], [])).2.1))

/-- Value iterates of the fixed-policy backup started from zeros(states). -/
def evalVn (discount : ℚ) (rows : List (ℚ × List ℕ × List ℚ)) (states : ℕ) : ℕ → List ℚ
  | 0 => List.replicate states 0
  | n + 1 => evalStep discount rows states (evalVn discount rows states n)

/-- Variation recorded at inner iteration n >= 1 of the evaluation loop. -/
def evalVarn (discount : ℚ) (rows : List (ℚ × List ℕ × List ℚ)) (states : ℕ) (n : ℕ) : ℚ :=
  maxAbsDiff (evalVn discount rows states n) (evalVn discount rows states (n - 1))

/-- The while-loop of \_evalPolicyIterative: itr += 1, one synchronous backup,
    variation = max abs difference, stop when variation < th, stop when
    itr = maxIter, else continue.  fuel is the remaining permitted number of
    iterations. -/
def evalLoop (discount th : ℚ) (rows : List (ℚ × List ℕ × List ℚ)) (states maxIter : ℕ) :
    ℕ → ℕ → List ℚ → List ℚ × ℕ
  | 0, itr, V => (V, itr)
  | fuel + 1, itr, V =>
    if maxAbsDiff (evalStep discount rows states V) V < th then
      (evalStep discount rows states V, itr + 1)
    else if itr + 1 = maxIter then (evalStep discount rows states V, itr + 1)
    else evalLoop discount th rows states maxIter fuel (itr + 1) (evalStep discount rows states V)

/-- CpMdpPolicyIteration.\_evalPolicyIterative with the default V0 = 0 (the
    only form its run() method uses): build the policy-induced rows, then
    iterate the fixed-policy backup from zeros(states) with threshold
    ((1 - discount) / discount) * epsilon, stopping on the threshold or on
    max_iter inner iterations.  Returns the final value vector and the number
    of inner iterations performed. -/
def evalPolicyIterative (m : MdpCore) (policy : List ℕ) (epsilon : ℚ) (maxIter : ℕ) :
    Except PyErr (List ℚ × ℕ) :=
  match computePpolicyPRpolicy m policy with
  | .error e => .error e
  | .ok rows =>
    .ok (evalLoop m.discount ((1 - m.discount) / m.discount * epsilon) rows m.states maxIter
          maxIter 0 (List.replicate m.states 0))

/-- The call self.\_evalPolicyIterative() made by CpMdpPolicyIteration.run:
    no arguments are passed, so the defaults epsilon = 0.0001 and
    max_iter = 100 apply — the epsilon supplied to the constructor is not
    used. -/
def runEvalCall (m : MdpCore) (policy : List ℕ) : Except PyErr (List ℚ × ℕ) :=
  evalPolicyIterative m policy (1/10000) 100

lemma mapM_ok_of_forall {α β : Type} (f : α → Except PyErr β) :
    ∀ l : List α, (∀ a ∈ l, ∃ b, f a = .ok b) →
    ∃ bs : List β, l.mapM f = .ok bs ∧ bs.length = l.length := by
  intro l
  induction l with
  | nil => exact fun _ => ⟨[], rfl, rfl⟩
  | cons a l ih =>
    intro h
    obtain ⟨b, hb⟩ := h a (by simp)
    obtain ⟨bs, hbs, hlen⟩ := ih (fun x hx => h x (by simp [hx]))
    refine ⟨b :: bs, ?_, by simp [hlen]⟩
    rw [List.mapM_cons, hb, hbs]
    rfl

lemma mapM_fixed_error {α β : Type} (f : α → Except PyErr β) (e0 : PyErr) :
    ∀ l : List α, (∀ a ∈ l, (∃ b, f a = .ok b) ∨ f a = .error e0) →
    (∃ a ∈ l, f a = .error e0) → l.mapM f = .error e0 := by
  intro l
  induction l with
  | nil => intro _ hex; simp at hex
  | cons a l ih =>
    intro h hex
    rcases h a (by simp) with ⟨b, hb⟩ | hb
    · have hex2 : ∃ x ∈ l, f x = .error e0 := by
        obtain ⟨x, hx, hfx⟩ := hex
        rcases List.mem_cons.mp hx with rfl | hxl
        · rw [hfx] at hb; exact absurd hb (by simp)
        · exact ⟨x, hxl, hfx⟩
      rw [List.mapM_cons, hb, ih (fun x hx => h x (by simp [hx])) hex2]
      rfl
    · rw [List.mapM_cons, hb]
      rfl

lemma policyRowAt_ok (m : MdpCore) (policy : List ℕ) (s : ℕ) (hsn : s < m.states)
    (hB : ∀ a, a < m.A → ∀ s, s < m.states →
      ((m.splitSucc.getD a []).getD s []).length = m.A - 1 ∧
      ((m.splitProb.getD a []).getD s []).length = m.A - 1) :
    ∃ b, policyRowAt m policy s = .ok b := by
  unfold policyRowAt
  by_cases ha : policy.getD s 0 < m.A
  · obtain ⟨h1, h2⟩ := hB _ ha s hsn
    rw [if_pos ha]
    have e1 : broadcastRow (m.A - 1) ((m.splitSucc.getD (policy.getD s 0) []).getD s []) =
        .ok ((m.splitSucc.getD (policy.getD s 0) []).getD s []) := by
      unfold broadcastRow
      rw [if_pos h1]
    have e2 : broadcastRow (m.A - 1) ((m.splitProb.getD (policy.getD s 0) []).getD s []) =
        .ok ((m.splitProb.getD (policy.getD s 0) []).getD s []) := by
      unfold broadcastRow
      rw [if_pos h2]
    exact ⟨_, by rw [e1, e2]⟩
  · rw [if_neg ha]
    exact ⟨_, rfl⟩

lemma computePpolicyPRpolicy_ok (m : MdpCore) (policy : List ℕ)
    (hB : ∀ a, a < m.A → ∀ s, s < m.states →
      ((m.splitSucc.getD a []).getD s []).length = m.A - 1 ∧
      ((m.splitProb.getD a []).getD s []).length = m.A - 1) :
    ∃ rows, computePpolicyPRpolicy m policy = .ok rows ∧ rows.length = m.states := by
  unfold computePpolicyPRpolicy
  have hall : ∀ s ∈ List.range m.states, ∃ b, policyRowAt m policy s = .ok b := by
    intro s hs
    exact policyRowAt_ok m policy s (List.mem_range.mp hs) hB
  obtain ⟨bs, hbs, hlen⟩ := mapM_ok_of_forall (policyRowAt m policy) (List.range m.states) hall
  exact ⟨bs, hbs, by rw [hlen, List.length_range]⟩

lemma evalVarn_succ (discount : ℚ) (rows : List (ℚ × List ℕ × List ℚ)) (states itr : ℕ) :
    maxAbsDiff (evalStep discount rows states (evalVn discount rows states itr))
        (evalVn discount rows states itr) = evalVarn discount rows states (itr + 1) := by
  unfold evalVarn
  simp only [Nat.add_sub_cancel]
  rfl

lemma evalLoop_char (discount th : ℚ) (rows : List (ℚ × List ℕ × List ℚ)) (states maxIter : ℕ) :
    ∀ fuel itr, itr + fuel = maxIter → 1 ≤ fuel →
    ∃ k, itr < k ∧ k ≤ maxIter ∧
      evalLoop discount th rows states maxIter fuel itr (evalVn discount rows states itr) =
        (evalVn discount rows states k, k) ∧
      (evalVarn discount rows states k < th ∨ k = maxIter) ∧
      ∀ j, itr < j → j < k → ¬ (evalVarn discount rows states j < th) := by
  intro fuel
  induction fuel with
  | zero => intro itr _ h1; omega
  | succ f ih =>
    intro itr hsum _
    have hc := evalVarn_succ discount rows states itr
    simp only [evalLoop]
    rw [hc]
    by_cases hv : evalVarn discount rows states (itr + 1) < th
    · refine ⟨itr + 1, by omega, by omega, ?_, Or.inl hv, fun j h1 h2 => by omega⟩
      rw [if_pos hv]
      rfl
    · by_cases hm : itr + 1 = maxIter
      · refine ⟨itr + 1, by omega, by omega, ?_, Or.inr hm, fun j h1 h2 => by omega⟩
        rw [if_neg hv, if_pos hm]
        rfl
      · obtain ⟨k, hk1, hk2, hk3, hk4, hk5⟩ := ih (itr + 1) (by omega) (by omega)
        refine ⟨k, by omega, hk2, ?_, hk4, ?_⟩
        · rw [if_neg hv, if_neg hm]
          exact hk3
        · intro j hj1 hj2
          rcases Nat.lt_or_ge (itr + 1) j with hgt | hle
          · exact hk5 j hgt hj2
          · have : j = itr + 1 := by omega
            rw [this]
            exact hv

/-- C3 (amended): every policy-evaluation phase run by
    CpMdpPolicyIteration.run iterates the synchronous fixed-policy backup
    V[s] = Rpolicy[s] + discount * dot(prob, V[succ]) from zeros and stops
    exactly when max|dV| < ((1 - discount)/discount) * 0.0001 — the hard-coded
    default epsilon of \_evalPolicyIterative, which run() always uses because
    it passes no arguments — or when 100 inner iterations have been performed.
    The epsilon supplied to the solver constructor plays no part. -/
theorem c3_eval_stops_on_default_epsilon (m : MdpCore) (pol : List ℕ)
    (rows : List (ℚ × List ℕ × List ℚ))
    (hrows : computePpolicyPRpolicy m pol = .ok rows) :
    ∃ V k, runEvalCall m pol = .ok (V, k) ∧
      V = evalVn m.discount rows m.states k ∧ 1 ≤ k ∧ k ≤ 100 ∧
      (evalVarn m.discount rows m.states k < (1 - m.discount) / m.discount * (1/10000) ∨
        k = 100) ∧
      ∀ j, 1 ≤ j → j < k →
        ¬ (evalVarn m.discount rows m.states j < (1 - m.discount) / m.discount * (1/10000)) := by
  obtain ⟨k, hk1, hk2, hk3, hk4, hk5⟩ :=
    evalLoop_char m.discount ((1 - m.discount) / m.discount * (1/10000)) rows m.states 100
      100 0 (by omega) (by omega)
  refine ⟨evalVn m.discount rows m.states k, k, ?_, rfl, hk1, hk2, hk4,
    fun j hj1 hj2 => hk5 j hj1 hj2⟩
  unfold runEvalCall evalPolicyIterative
  rw [hrows]
  show Except.ok (evalLoop m.discount ((1 - m.discount) / m.discount * (1/10000)) rows m.states
      100 100 0 (evalVn m.discount rows m.states 0)) =
    Except.ok (evalVn m.discount rows m.states k, k)
  rw [hk3]

/-- Concrete one-state, two-action policy-iteration instance: self-loops with
    probability 1, reward 1 for both actions, discount 1/2, constructor
    epsilon 1. -/
def coreC3 : MdpCore :=
  { S := 1, A := 2, states := 1, discount := 1/2, epsilon := 1, maxIter := 1000,
    R := [[1], [1]],
    splitSucc := [[[0]], [[0]]],
    splitProb := [[[1]], [[1]]] }

/-- The policy-induced rows of coreC3 under the policy [0]. -/
def rowsC3 : List (ℚ × List ℕ × List ℚ) := [((1 : ℚ), [0], [(1 : ℚ)])]

/-- Witness for C3 (amended) on the concrete instance. -/
theorem c3_eval_stops_on_default_epsilon_witness :
    computePpolicyPRpolicy coreC3 [0] = .ok rowsC3 ∧
    (∃ V k, runEvalCall coreC3 [0] = .ok (V, k) ∧
      V = evalVn coreC3.discount rowsC3 coreC3.states k ∧ 1 ≤ k ∧ k ≤ 100 ∧
      (evalVarn coreC3.discount rowsC3 coreC3.states k <
          (1 - coreC3.discount) / coreC3.discount * (1/10000) ∨ k = 100) ∧
      ∀ j, 1 ≤ j → j < k →
        ¬ (evalVarn coreC3.discount rowsC3 coreC3.states j <
            (1 - coreC3.discount) / coreC3.discount * (1/10000))) :=
  ⟨by with_unfolding_all decide,
    c3_eval_stops_on_default_epsilon coreC3 [0] rowsC3 (by with_unfolding_all decide)⟩

/-- Counterexample for C3 as stated: on coreC3 (constructor epsilon = 1) the
    evaluation phase invoked by run() performs 15 inner iterations, while the
    loop stopping on the constructor epsilon — as the claim describes — would
    stop after 2: the run uses the hard-coded default 0.0001 instead of the
    constructor epsilon. -/
theorem c3_counterexample :
    Except.map Prod.snd (runEvalCall coreC3 [0]) = .ok 15 ∧
    Except.map Prod.snd (evalPolicyIterative coreC3 [0] coreC3.epsilon 100) = .ok 2 ∧
    (15 : ℕ) ≠ 2 := by
  refine ⟨by with_unfolding_all decide, by with_unfolding_all decide, by decide⟩

lemma broadcastRow_error {α : Type} (w : ℕ) (row : List α)
    (h1 : row.length ≠ w) (h2 : row.length ≠ 1) :
    broadcastRow w row = .error .broadcastError := by
  unfold broadcastRow
  rw [if_neg h1]
  match row with
  | [] => rfl
  | [x] => exact absurd rfl h2
  | x :: y :: ys => rfl

lemma policyRowAt_error (m : MdpCore) (policy : List ℕ) (s : ℕ) (B : ℕ)
    (ha : policy.getD s 0 < m.A)
    (hlen : ((m.splitSucc.getD (policy.getD s 0) []).getD s []).length = B)
    (hBne : B ≠ m.A - 1) (hB1 : B ≠ 1) :
    policyRowAt m policy s = .error .broadcastError := by
  unfold policyRowAt
  rw [if_pos ha]
  have e1 : broadcastRow (m.A - 1) ((m.splitSucc.getD (policy.getD s 0) []).getD s []) =
      .error .broadcastError := by
    apply broadcastRow_error
    · rw [hlen]; exact hBne
    · rw [hlen]; exact hB1
  rw [e1]

/-- C10 (amended): \_computePpolicyPRpolicy allocates the policy-induced
    successor / probability arrays with exactly A - 1 entries per state, so
    policy evaluation requires each selected state-action successor list to
    have length A - 1.  When every per-state list has some other uniform
    length B, with B also different from 1, and the policy selects a valid
    action (index < A) for at least one state, the per-state mask assignment
    fails with a numpy broadcast ValueError and the evaluation call propagates
    it before any evaluation iteration runs.  (Two cases the original claim
    misses: a length-1 list is silently broadcast across the A - 1 slots
    instead of failing, and a policy whose entries all lie outside [0, A)
    selects no rows, leaving the zero-filled arrays in place with no error.) -/
theorem c10_eval_requires_width (m : MdpCore) (policy : List ℕ) (B : ℕ)
    (hrows : ∀ a, a < m.A → ∀ s, s < m.states →
      ((m.splitSucc.getD a []).getD s []).length = B)
    (hBne : B ≠ m.A - 1) (hB1 : B ≠ 1)
    (hsel : ∃ s, s < m.states ∧ policy.getD s 0 < m.A) :
    computePpolicyPRpolicy m policy = .error .broadcastError ∧
    runEvalCall m policy = .error .broadcastError := by
  have hmain : computePpolicyPRpolicy m policy = .error .broadcastError := by
    unfold computePpolicyPRpolicy
    apply mapM_fixed_error (policyRowAt m policy) .broadcastError (List.range m.states)
    · intro s hs
      have hsn : s < m.states := List.mem_range.mp hs
      by_cases ha : policy.getD s 0 < m.A
      · exact Or.inr (policyRowAt_error m policy s B ha (hrows _ ha s hsn) hBne hB1)
      · refine Or.inl ⟨(0, List.replicate (m.A - 1) 0, List.replicate (m.A - 1) 0), ?_⟩
        unfold policyRowAt
        rw [if_neg ha]
    · obtain ⟨s, hsn, ha⟩ := hsel
      refine ⟨s, List.mem_range.mpr hsn, ?_⟩
      exact policyRowAt_error m policy s B ha (hrows _ ha s hsn) hBne hB1
  refine ⟨hmain, ?_⟩
  unfold runEvalCall evalPolicyIterative
  rw [hmain]

/-- One-state, two-action instance whose successor lists have length 2 while
    A - 1 = 1: the mask assignment fails. -/
def coreC10w : MdpCore :=
  { S := 2, A := 2, states := 1, discount := 1/2, epsilon := 1/100, maxIter := 1000,
    R := [[0], [0]],
    splitSucc := [[[0, 0]], [[0, 0]]],
    splitProb := [[[1/2, 1/2]], [[1/2, 1/2]]] }

/-- Witness for C10 (amended) on coreC10w with the policy [0]. -/
theorem c10_eval_requires_width_witness :
    (∀ a, a < coreC10w.A → ∀ s, s < coreC10w.states →
      ((coreC10w.splitSucc.getD a []).getD s []).length = 2) ∧
    ((2 : ℕ) ≠ coreC10w.A - 1) ∧ ((2 : ℕ) ≠ 1) ∧
    (0 < coreC10w.states ∧ ([0] : List ℕ).getD 0 0 < coreC10w.A) ∧
    (computePpolicyPRpolicy coreC10w [0] = .error .broadcastError ∧
      runEvalCall coreC10w [0] = .error .broadcastError) :=
  ⟨by decide, by decide, by decide, ⟨by decide, by decide⟩,
    c10_eval_requires_width coreC10w [0] 2 (by decide) (by decide) (by decide)
      ⟨0, by decide, by decide⟩⟩

/-- One-state, three-action instance with branching factor 1, so each
    successor list has length 1 while A - 1 = 2. -/
def coreC10 : MdpCore :=
  { S := 1, A := 3, states := 1, discount := 1/2, epsilon := 1/100, maxIter := 1000,
    R := [[2], [1], [0]],
    splitSucc := [[[0]], [[0]], [[0]]],
    splitProb := [[[1]], [[1]], [[1]]] }

/-- Counterexample for C10 as stated: on coreC10 the per-state successor lists
    have length 1, different from A - 1 = 2, yet the evaluation run does not
    fail with a shape error — numpy broadcasts the single successor across
    both slots and the evaluation loop runs its full 100 iterations. -/
theorem c10_counterexample :
    isOkE (runEvalCall coreC10 [0]) = true ∧
    Except.map Prod.snd (runEvalCall coreC10 [0]) = .ok 100 ∧
    ((1 : ℕ) ≠ 3 - 1) := by
  refine ⟨by with_unfolding_all decide, by with_unfolding_all decide, by decide⟩

/-- Reasons CpMdpPolicyIteration.run stops its outer loop. -/
inductive PiStop where
  /-- n_different == 0: unchanging policy found. -/
  | unchangingPolicy
  /-- iter == max_iter. -/
  | maxIterReached
deriving DecidableEq, Repr

/-- n_different = (policy_next != policy).sum() over two equal-length integer
    vectors. -/
def countDiff (p q : List ℕ) : ℕ := ((p.zip q).filter (fun x => x.1 != x.2)).length

/-- The while-loop of CpMdpPolicyIteration.run: iter += 1, evaluate the current
    policy iteratively (updating V), run one Bellman backup on the evaluated V
    to obtain the candidate policy, count the differing states, stop with the
    unchanging-policy message when the count is zero, stop on iter == max_iter,
    otherwise adopt the candidate and continue.  On both stops the stored
    policy is the one from before the improvement step, exactly as in the
    source (the candidate is only adopted in the continue branch). -/
def piLoop (m : MdpCore) (maxIter : ℕ) :
    ℕ → ℕ → List ℕ → Except PyErr (PiStop × ℕ × List ℕ × List ℚ)
  | 0, _, _ => .error .nonTermination
  | fuel + 1, itr, pol =>
    match runEvalCall m pol with
    | .error e => .error e
    | .ok Vk =>
      if countDiff (bellmanOperator m Vk.1).1 pol = 0 then
        .ok (.unchangingPolicy, itr + 1, pol, Vk.1)
      else if itr + 1 = maxIter then
        .ok (.maxIterReached, itr + 1, pol, Vk.1)
      else piLoop m maxIter fuel (itr + 1) (bellmanOperator m Vk.1).1

/-- CpMdpPolicyIteration.run started from an initial policy. -/
def piRunFrom (m : MdpCore) (pol0 : List ℕ) : Except PyErr (PiStop × ℕ × List ℕ × List ℚ) :=
  piLoop m m.maxIter m.maxIter 0 pol0

lemma runEvalCall_ok (m : MdpCore) (pol : List ℕ)
    (hB : ∀ a, a < m.A → ∀ s, s < m.states →
      ((m.splitSucc.getD a []).getD s []).length = m.A - 1 ∧
      ((m.splitProb.getD a []).getD s []).length = m.A - 1) :
    ∃ V k, runEvalCall m pol = .ok (V, k) ∧ 1 ≤ k ∧ k ≤ 100 := by
  obtain ⟨rows, hrows, _⟩ := computePpolicyPRpolicy_ok m pol hB
  obtain ⟨k, hk1, hk2, hk3, _, _⟩ :=
    evalLoop_char m.discount ((1 - m.discount) / m.discount * (1/10000)) rows m.states 100
      100 0 (by omega) (by omega)
  refine ⟨evalVn m.discount rows m.states k, k, ?_, hk1, hk2⟩
  unfold runEvalCall evalPolicyIterative
  rw [hrows]
  show Except.ok (evalLoop m.discount ((1 - m.discount) / m.discount * (1/10000)) rows m.states
      100 100 0 (evalVn m.discount rows m.states 0)) =
    Except.ok (evalVn m.discount rows m.states k, k)
  rw [hk3]

lemma piLoop_ok (m : MdpCore)
    (hB : ∀ a, a < m.A → ∀ s, s < m.states →
      ((m.splitSucc.getD a []).getD s []).length = m.A - 1 ∧
      ((m.splitProb.getD a []).getD s []).length = m.A - 1) :
    ∀ fuel itr pol, itr + fuel = m.maxIter → 1 ≤ fuel →
    ∃ reason iters polF VF, piLoop m m.maxIter fuel itr pol = .ok (reason, iters, polF, VF) ∧
      itr < iters ∧ iters ≤ m.maxIter ∧
      ((reason = .unchangingPolicy ∧ countDiff (bellmanOperator m VF).1 polF = 0) ∨
       (reason = .maxIterReached ∧ iters = m.maxIter)) := by
  intro fuel
  induction fuel with
  | zero => intro itr pol h h1; omega
  | succ f ih =>
    intro itr pol hsum _
    obtain ⟨V, k, hev, _, _⟩ := runEvalCall_ok m pol hB
    have heq0 : piLoop m m.maxIter (f + 1) itr pol =
        (if countDiff (bellmanOperator m V).1 pol = 0 then
          Except.ok (PiStop.unchangingPolicy, itr + 1, pol, V)
        else if itr + 1 = m.maxIter then
          Except.ok (PiStop.maxIterReached, itr + 1, pol, V)
        else piLoop m m.maxIter f (itr + 1) (bellmanOperator m V).1) := by
      simp only [piLoop]
      rw [hev]
    by_cases hnd : countDiff (bellmanOperator m V).1 pol = 0
    · rw [if_pos hnd] at heq0
      exact ⟨_, _, _, _, heq0, by omega, by omega, Or.inl ⟨rfl, hnd⟩⟩
    · by_cases hm : itr + 1 = m.maxIter
      · rw [if_neg hnd, if_pos hm] at heq0
        exact ⟨_, _, _, _, heq0, by omega, by omega, Or.inr ⟨rfl, hm⟩⟩
      · rw [if_neg hnd, if_neg hm] at heq0
        obtain ⟨reason, iters, polF, VF, hrec, h1, h2, h3⟩ :=
          ih (itr + 1) (bellmanOperator m V).1 (by omega) (by omega)
        exact ⟨reason, iters, polF, VF, heq0.trans hrec, by omega, h2, h3⟩

/-- C6: on every valid input (successor and probability rows of the width
    A - 1 that the evaluation requires, max_iter >= 1), the policy-iteration
    run terminates: it performs between 1 and max_iter outer iterations and
    stops either because the candidate policy differs from the current policy
    in zero states (unchanging policy) or because the outer iteration count
    reached max_iter; and every inner policy evaluation performs at most 100
    iterations. -/
theorem c6_policy_iteration_terminates (m : MdpCore) (pol0 : List ℕ)
    (hB : ∀ a, a < m.A → ∀ s, s < m.states →
      ((m.splitSucc.getD a []).getD s []).length = m.A - 1 ∧
      ((m.splitProb.getD a []).getD s []).length = m.A - 1)
    (hmi : 1 ≤ m.maxIter) :
    (∃ reason iters polF VF, piRunFrom m pol0 = .ok (reason, iters, polF, VF) ∧
      1 ≤ iters ∧ iters ≤ m.maxIter ∧
      ((reason = .unchangingPolicy ∧ countDiff (bellmanOperator m VF).1 polF = 0) ∨
       (reason = .maxIterReached ∧ iters = m.maxIter))) ∧
    (∀ pol, ∃ V k, runEvalCall m pol = .ok (V, k) ∧ 1 ≤ k ∧ k ≤ 100) := by
  constructor
  · obtain ⟨reason, iters, polF, VF, heq, h1, h2, h3⟩ :=
      piLoop_ok m hB m.maxIter 0 pol0 (by omega) hmi
    exact ⟨reason, iters, polF, VF, heq, h1, h2, h3⟩
  · exact fun pol => runEvalCall_ok m pol hB

/-- Concrete instance for the C6 witness: two states, two actions, branching
    factor 1 = A - 1. -/
def coreC6 : MdpCore :=
  { S := 2, A := 2, states := 2, discount := 1/2, epsilon := 1/100, maxIter := 5,
    R := [[3, 0], [0, 1]],
    splitSucc := [[[0], [0]], [[1], [1]]],
    splitProb := [[[1], [1]], [[1], [1]]] }

/-- Witness for C6 on coreC6 with the Bellman-style initial policy [0, 1]. -/
theorem c6_policy_iteration_terminates_witness :
    (∀ a, a < coreC6.A → ∀ s, s < coreC6.states →
      ((coreC6.splitSucc.getD a []).getD s []).length = coreC6.A - 1 ∧
      ((coreC6.splitProb.getD a []).getD s []).length = coreC6.A - 1) ∧
    1 ≤ coreC6.maxIter ∧
    ((∃ reason iters polF VF, piRunFrom coreC6 [0, 1] = .ok (reason, iters, polF, VF) ∧
      1 ≤ iters ∧ iters ≤ coreC6.maxIter ∧
      ((reason = .unchangingPolicy ∧ countDiff (bellmanOperator coreC6 VF).1 polF = 0) ∨
       (reason = .maxIterReached ∧ iters = coreC6.maxIter))) ∧
    (∀ pol, ∃ V k, runEvalCall coreC6 pol = .ok (V, k) ∧ 1 ≤ k ∧ k ≤ 100)) :=
  ⟨by decide, by decide,
    c6_policy_iteration_terminates coreC6 [0, 1] (by decide) (by decide)⟩

/-- Reasons CpMdpValueIteration.run stops. -/
inductive ViStop where
  /-- variation < thresh: epsilon-optimal policy found. -/
  | epsilonOptimal
  /-- iter == max_iter. -/
  | maxIterReached
  /-- Fuel exhausted: the Python loop would still be running (only possible
      when max_iter = 0, which MDP.\_\_init\_\_ rejects). -/
  | fuelOut
deriving DecidableEq, Repr

/-- Elementwise difference of two equal-length vectors. -/
def subList (a b : List ℚ) : List ℚ := List.zipWith (fun x y => x - y) a b

/-- The while-loop of CpMdpValueIteration.run: iter += 1, one Bellman backup
    replacing policy and V, variation = getSpan(V - Vprev), stop when
    variation < thresh or iter == max_iter. -/
def viLoop (m : MdpCore) (maxIter : ℕ) (thresh : ℚ) :
    ℕ → ℕ → List ℚ → ViStop × ℕ × List ℕ × List ℚ
  | 0, itr, _ => (.fuelOut, itr, [], [])
  | fuel + 1, itr, V =>
    if getSpan (subList (bellmanOperator m V).2 V) < thresh then
      (.epsilonOptimal, itr + 1, (bellmanOperator m V).1, (bellmanOperator m V).2)
    else if itr + 1 = maxIter then
      (.maxIterReached, itr + 1, (bellmanOperator m V).1, (bellmanOperator m V).2)
    else viLoop m maxIter thresh fuel (itr + 1) (bellmanOperator m V).2

/-- CpMdpValueIteration.run from a given V. -/
def viRunFrom (m : MdpCore) (thresh : ℚ) (V0 : List ℚ) : ViStop × ℕ × List ℕ × List ℚ :=
  viLoop m m.maxIter thresh m.maxIter 0 V0

/-- len(self.split_succ_s[0]): the bound of the per-state loops in
    CpMdpValueIterationGS.run (equal to states when the split is proper). -/
def sweepLen (m : MdpCore) : ℕ := (m.splitSucc.getD 0 []).length

/-- First n steps of one in-place Gauss-Seidel pass from V0: for
    s = 0 .. n-1 in order, V[s] := max over actions of Q(s, .) computed from
    the current, partially updated V. -/
def gsFinalV (m : MdpCore) (V0 : List ℚ) (n : ℕ) : List ℚ :=
  (List.range n).foldl (fun W s => W.set s (listMax (QsList m W s))) V0

/-- One full in-place sweep of CpMdpValueIterationGS.run. -/
def gsSweep (m : MdpCore) (V : List ℚ) : List ℚ := gsFinalV m V (sweepLen m)

/-- The while-loop of CpMdpValueIterationGS.run: iter += 1, one in-place sweep,
    variation = getSpan(V - Vprev), stop when variation < thresh or
    iter == max_iter.  Returns the iteration count and the value function at
    loop termination. -/
def gsLoop (m : MdpCore) (maxIter : ℕ) (thresh : ℚ) : ℕ → ℕ → List ℚ → ℕ × List ℚ
  | 0, itr, V => (itr, V)
  | fuel + 1, itr, V =>
    if getSpan (subList (gsSweep m V) V) < thresh then (itr + 1, gsSweep m V)
    else if itr + 1 = maxIter then (itr + 1, gsSweep m V)
    else gsLoop m maxIter thresh fuel (itr + 1) (gsSweep m V)

/-- The final pass of CpMdpValueIterationGS.run: for each state in order,
    recompute Q from the current V, update V[s] := Q.max() in place, and append
    int(Q.argmax()) to the policy — so the pass is itself Gauss-Seidel: the Q
    column of state s reads the values already rewritten for states before
    s. -/
def gsFinal (m : MdpCore) (V0 : List ℚ) : List ℚ × List ℕ :=
  (List.range (sweepLen m)).foldl
    (fun acc s =>
      (acc.1.set s (listMax (QsList m acc.1 s)), acc.2 ++ [argmaxQ (QsList m acc.1 s)]))
    (V0, [])

/-- CpMdpValueIterationGS.run from a given V: the loop followed by the final
    pass; returns (iterations, final V, policy). -/
def gsRunFrom (m : MdpCore) (maxIter : ℕ) (thresh : ℚ) (V0 : List ℚ) :
    ℕ × List ℚ × List ℕ :=
  ((gsLoop m maxIter thresh maxIter 0 V0).1,
   (gsFinal m (gsLoop m maxIter thresh maxIter 0 V0).2).1,
   (gsFinal m (gsLoop m maxIter thresh maxIter 0 V0).2).2)

/-- The greedy policy recomputed from a fixed value function V — what the C4
    claim says the final pass produces. -/
def greedyPolicy (m : MdpCore) (V : List ℚ) : List ℕ :=
  (List.range (sweepLen m)).map (fun s => argmaxQ (QsList m V s))

lemma gsFinalV_succ (m : MdpCore) (V0 : List ℚ) (n : ℕ) :
    gsFinalV m V0 (n + 1) =
      (gsFinalV m V0 n).set n (listMax (QsList m (gsFinalV m V0 n) n)) := by
  unfold gsFinalV
  rw [List.range_succ, List.foldl_append]
  rfl

lemma gsFinal_fold (m : MdpCore) (V0 : List ℚ) :
    ∀ n, (List.range n).foldl
        (fun acc s =>
          (acc.1.set s (listMax (QsList m acc.1 s)), acc.2 ++ [argmaxQ (QsList m acc.1 s)]))
        (V0, ([] : List ℕ)) =
      (gsFinalV m V0 n, (List.range n).map (fun s => argmaxQ (QsList m (gsFinalV m V0 s) s))) := by
  intro n
  induction n with
  | zero => rfl
  | succ n ih =>
    rw [List.range_succ, List.foldl_append, ih, List.foldl_cons, List.foldl_nil,
      List.map_append, List.map_cons, List.map_nil]
    rw [← gsFinalV_succ]

lemma gsFinal_eq (m : MdpCore) (V0 : List ℚ) :
    gsFinal m V0 = (gsFinalV m V0 (sweepLen m),
      (List.range (sweepLen m)).map (fun s => argmaxQ (QsList m (gsFinalV m V0 s) s))) :=
  gsFinal_fold m V0 (sweepLen m)

/-- C4 (amended): after the Gauss-Seidel sweep loop terminates with value
    function Vend, the final full backup pass produces, for every state s, a
    policy entry equal to the greedy argmax of Q(s, .) computed from the value
    function as already partially rewritten by the final pass itself — states
    before s use their final-pass values, not Vend.  The policy is produced
    only in this final pass, never during the sweeps. -/
theorem c4_final_pass_policy (m : MdpCore) (maxIter : ℕ) (thresh : ℚ) (V0 : List ℚ)
    (hmi : 1 ≤ maxIter) (s : ℕ) (hs : s < sweepLen m) :
    (gsRunFrom m maxIter thresh V0).2.2 =
      (List.range (sweepLen m)).map
        (fun t => argmaxQ (QsList m (gsFinalV m (gsLoop m maxIter thresh maxIter 0 V0).2 t) t)) ∧
    (gsRunFrom m maxIter thresh V0).2.2.getD s 0 =
      argmaxQ (QsList m (gsFinalV m (gsLoop m maxIter thresh maxIter 0 V0).2 s) s) := by
  have h1 : (gsRunFrom m maxIter thresh V0).2.2 =
      (List.range (sweepLen m)).map
        (fun t => argmaxQ (QsList m (gsFinalV m (gsLoop m maxIter thresh maxIter 0 V0).2 t) t)) := by
    unfold gsRunFrom
    rw [gsFinal_eq]
  exact ⟨h1, by rw [h1]; exact getD_map_range _ _ _ hs _⟩

/-- Two-state, two-action Gauss-Seidel instance with discount 1 (so the
    constructor keeps max_iter = 1 and thresh = epsilon): reachable from
    gsInit, and the final pass flips the greedy action of state 1. -/
def coreC4 : MdpCore :=
  { S := 2, A := 2, states := 2, discount := 1, epsilon := 1/1000, maxIter := 1,
    R := [[0, 4], [0, 3]],
    splitSucc := [[[0], [0]], [[1], [1]]],
    splitProb := [[[1], [1]], [[1], [1]]] }

/-- Witness for C4 (amended) at state 1 of coreC4. -/
theorem c4_final_pass_policy_witness :
    1 ≤ (1 : ℕ) ∧ 1 < sweepLen coreC4 ∧
    ((gsRunFrom coreC4 1 (1/1000) [0, 0]).2.2 =
      (List.range (sweepLen coreC4)).map
        (fun t => argmaxQ (QsList coreC4
          (gsFinalV coreC4 (gsLoop coreC4 1 (1/1000) 1 0 [0, 0]).2 t) t)) ∧
    (gsRunFrom coreC4 1 (1/1000) [0, 0]).2.2.getD 1 0 =
      argmaxQ (QsList coreC4 (gsFinalV coreC4 (gsLoop coreC4 1 (1/1000) 1 0 [0, 0]).2 1) 1)) :=
  ⟨by decide, by decide, c4_final_pass_policy coreC4 1 (1/1000) [0, 0] (by decide) 1 (by decide)⟩

/-- Counterexample for C4 as stated: on coreC4 — a state reachable from
    CpMdpValueIterationGS.\_\_init\_\_ with discount 1, epsilon 1/1000,
    max_iter 1 — the sweep loop terminates with Vend = [0, 4]; the greedy
    argmax recomputed from that converged Vend is [1, 1], but the final pass
    returns policy [1, 0]: its in-place update of state 0 (V[0] := 4) flips
    the argmax of state 1 before the policy entry of state 1 is taken. -/
theorem c4_counterexample :
    gsInit [[0, 0], [1, 1]] [[1, 1], [1, 1]] (.mat [[0, 0], [4, 3]]) 2 1 (1/1000) 1 none =
      .ok { core := coreC4, V := [0, 0], thresh := 1/1000 } ∧
    (gsLoop coreC4 1 (1/1000) 1 0 [0, 0]).2 = [0, 4] ∧
    (gsRunFrom coreC4 1 (1/1000) [0, 0]).2.2 = [1, 0] ∧
    greedyPolicy coreC4 [0, 4] = [1, 1] ∧
    ([1, 0] : List ℕ) ≠ [1, 1] := by
  refine ⟨by with_unfolding_all decide, by with_unfolding_all decide,
    by with_unfolding_all decide, by with_unfolding_all decide, by decide⟩

lemma evalVn_length (discount : ℚ) (rows : List (ℚ × List ℕ × List ℚ)) (states n : ℕ) :
    (evalVn discount rows states n).length = states := by
  cases n with
  | zero => simp [evalVn]
  | succ k => simp [evalVn, evalStep]

lemma runEvalCall_ok_len (m : MdpCore) (pol : List ℕ)
    (hB : ∀ a, a < m.A → ∀ s, s < m.states →
      ((m.splitSucc.getD a []).getD s []).length = m.A - 1 ∧
      ((m.splitProb.getD a []).getD s []).length = m.A - 1) :
    ∃ V k, runEvalCall m pol = .ok (V, k) ∧ V.length = m.states := by
  obtain ⟨rows, hrows, _⟩ := computePpolicyPRpolicy_ok m pol hB
  obtain ⟨k, hk1, hk2, hk3, _, _⟩ :=
    evalLoop_char m.discount ((1 - m.discount) / m.discount * (1/10000)) rows m.states 100
      100 0 (by omega) (by omega)
  refine ⟨evalVn m.discount rows m.states k, k, ?_, evalVn_length _ _ _ _⟩
  unfold runEvalCall evalPolicyIterative
  rw [hrows]
  show Except.ok (evalLoop m.discount ((1 - m.discount) / m.discount * (1/10000)) rows m.states
      100 100 0 (evalVn m.discount rows m.states 0)) =
    Except.ok (evalVn m.discount rows m.states k, k)
  rw [hk3]

lemma viLoop_out (m : MdpCore) (maxIter : ℕ) (thresh : ℚ) (hA : 0 < m.A) :
    ∀ fuel itr V, itr + fuel = maxIter → 1 ≤ fuel →
      (viLoop m maxIter thresh fuel itr V).2.2.1.length = m.states ∧
      (viLoop m maxIter thresh fuel itr V).2.2.2.length = m.states ∧
      ∀ s, s < m.states → (viLoop m maxIter thresh fuel itr V).2.2.1.getD s 0 < m.A := by
  intro fuel
  induction fuel with
  | zero => intro itr V h h1; omega
  | succ f ih =>
    intro itr V hsum _
    simp only [viLoop]
    by_cases hv : getSpan (subList (bellmanOperator m V).2 V) < thresh
    · rw [if_pos hv]
      exact ⟨bellman_policy_length m V, bellman_value_length m V,
        fun s hs => bellman_policy_lt_A m V s hs hA⟩
    · by_cases hm : itr + 1 = maxIter
      · rw [if_neg hv, if_pos hm]
        exact ⟨bellman_policy_length m V, bellman_value_length m V,
          fun s hs => bellman_policy_lt_A m V s hs hA⟩
      · rw [if_neg hv, if_neg hm]
        exact ih (itr + 1) (bellmanOperator m V).2 (by omega) (by omega)

lemma gsFinalV_length (m : MdpCore) (V0 : List ℚ) : ∀ n, (gsFinalV m V0 n).length = V0.length := by
  intro n
  induction n with
  | zero => rfl
  | succ n ih => rw [gsFinalV_succ, List.length_set]; exact ih

lemma gsSweep_length (m : MdpCore) (V : List ℚ) : (gsSweep m V).length = V.length :=
  gsFinalV_length m V (sweepLen m)

lemma gsLoop_V_length (m : MdpCore) (maxIter : ℕ) (thresh : ℚ) :
    ∀ fuel itr V, (gsLoop m maxIter thresh fuel itr V).2.length = V.length := by
  intro fuel
  induction fuel with
  | zero => intro itr V; rfl
  | succ f ih =>
    intro itr V
    simp only [gsLoop]
    by_cases hv : getSpan (subList (gsSweep m V) V) < thresh
    · rw [if_pos hv]; exact gsSweep_length m V
    · by_cases hm : itr + 1 = maxIter
      · rw [if_neg hv, if_pos hm]; exact gsSweep_length m V
      · rw [if_neg hv, if_neg hm]
        rw [ih (itr + 1) (gsSweep m V)]
        exact gsSweep_length m V

lemma piLoop_shape (m : MdpCore) (hA : 0 < m.A)
    (hB : ∀ a, a < m.A → ∀ s, s < m.states →
      ((m.splitSucc.getD a []).getD s []).length = m.A - 1 ∧
      ((m.splitProb.getD a []).getD s []).length = m.A - 1) :
    ∀ fuel itr pol, itr + fuel = m.maxIter → 1 ≤ fuel →
      pol.length = m.states → (∀ s, s < m.states → pol.getD s 0 < m.A) →
      ∃ reason iters polF VF, piLoop m m.maxIter fuel itr pol = .ok (reason, iters, polF, VF) ∧
        polF.length = m.states ∧ VF.length = m.states ∧
        ∀ s, s < m.states → polF.getD s 0 < m.A := by
  intro fuel
  induction fuel with
  | zero => intro itr pol h h1; omega
  | succ f ih =>
    intro itr pol hsum _ hplen hpA
    obtain ⟨V, k, hev, hVlen⟩ := runEvalCall_ok_len m pol hB
    have heq0 : piLoop m m.maxIter (f + 1) itr pol =
        (if countDiff (bellmanOperator m V).1 pol = 0 then
          Except.ok (PiStop.unchangingPolicy, itr + 1, pol, V)
        else if itr + 1 = m.maxIter then
          Except.ok (PiStop.maxIterReached, itr + 1, pol, V)
        else piLoop m m.maxIter f (itr + 1) (bellmanOperator m V).1) := by
      simp only [piLoop]
      rw [hev]
    by_cases hnd : countDiff (bellmanOperator m V).1 pol = 0
    · rw [if_pos hnd] at heq0
      exact ⟨_, _, _, _, heq0, hplen, hVlen, hpA⟩
    · by_cases hm : itr + 1 = m.maxIter
      · rw [if_neg hnd, if_pos hm] at heq0
        exact ⟨_, _, _, _, heq0, hplen, hVlen, hpA⟩
      · rw [if_neg hnd, if_neg hm] at heq0
        obtain ⟨reason, iters, polF, VF, hrec, h1, h2, h3⟩ :=
          ih (itr + 1) (bellmanOperator m V).1 (by omega) (by omega)
            (bellman_policy_length m V) (fun s hs => bellman_policy_lt_A m V s hs hA)
        exact ⟨reason, iters, polF, VF, heq0.trans hrec, h1, h2, h3⟩

/-- C7: for valid inputs to each of the three solvers (at least one action,
    value and policy seeds of length states, evaluation-compatible row widths
    for policy iteration, a policy seed whose entries are action indices, and
    max_iter at least 1), the run outputs satisfy: policy and value function
    both have length states (the number of states) and every policy entry p
    satisfies 0 <= p < A. -/
theorem c7_output_shapes (m : MdpCore) (hA : 0 < m.A)
    (hB : ∀ a, a < m.A → ∀ s, s < m.states →
      ((m.splitSucc.getD a []).getD s []).length = m.A - 1 ∧
      ((m.splitProb.getD a []).getD s []).length = m.A - 1)
    (hsw : sweepLen m = m.states) (hmi : 1 ≤ m.maxIter)
    (thresh : ℚ) (V0 : List ℚ) (hV0 : V0.length = m.states)
    (pol0 : List ℕ) (hp0 : pol0.length = m.states)
    (hp0A : ∀ s, s < m.states → pol0.getD s 0 < m.A)
    (gsMaxIter : ℕ) :
    ((viRunFrom m thresh V0).2.2.1.length = m.states ∧
     (viRunFrom m thresh V0).2.2.2.length = m.states ∧
     ∀ s, s < m.states → (viRunFrom m thresh V0).2.2.1.getD s 0 < m.A) ∧
    ((gsRunFrom m gsMaxIter thresh V0).2.2.length = m.states ∧
     (gsRunFrom m gsMaxIter thresh V0).2.1.length = m.states ∧
     ∀ s, s < m.states → (gsRunFrom m gsMaxIter thresh V0).2.2.getD s 0 < m.A) ∧
    (∃ reason iters polF VF, piRunFrom m pol0 = .ok (reason, iters, polF, VF) ∧
      polF.length = m.states ∧ VF.length = m.states ∧
      ∀ s, s < m.states → polF.getD s 0 < m.A) := by
  refine ⟨?_, ?_, ?_⟩
  · exact viLoop_out m m.maxIter thresh hA m.maxIter 0 V0 (by omega) hmi
  · have hpol : (gsRunFrom m gsMaxIter thresh V0).2.2 =
        (List.range (sweepLen m)).map
          (fun s => argmaxQ (QsList m
            (gsFinalV m (gsLoop m gsMaxIter thresh gsMaxIter 0 V0).2 s) s)) := by
      unfold gsRunFrom
      rw [gsFinal_eq]
    refine ⟨?_, ?_, ?_⟩
    · rw [hpol, length_map_range, hsw]
    · show (gsFinal m (gsLoop m gsMaxIter thresh gsMaxIter 0 V0).2).1.length = m.states
      rw [gsFinal_eq]
      rw [gsFinalV_length, gsLoop_V_length, hV0]
    · intro s hs
      rw [hpol]
      rw [getD_map_range _ _ _ (by rw [hsw]; exact hs) _]
      have hne := QsList_ne_nil m
        (gsFinalV m (gsLoop m gsMaxIter thresh gsMaxIter 0 V0).2 s) s hA
      have := argmaxQ_lt_length _ hne
      rwa [QsList_length] at this
  · exact piLoop_shape m hA hB m.maxIter 0 pol0 (by omega) hmi hp0 hp0A

/-- Concrete instance for the C7 witness. -/
def coreC7 : MdpCore :=
  { S := 2, A := 2, states := 2, discount := 1/2, epsilon := 1/100, maxIter := 3,
    R := [[2, 0], [0, 1]],
    splitSucc := [[[0], [0]], [[1], [1]]],
    splitProb := [[[1], [1]], [[1], [1]]] }

/-- Witness for C7 on coreC7 with V0 = [0, 0], pol0 = [0, 1], thresh 1/1000,
    Gauss-Seidel cap 3. -/
theorem c7_output_shapes_witness :
    0 < coreC7.A ∧ sweepLen coreC7 = coreC7.states ∧ 1 ≤ coreC7.maxIter ∧
    (((viRunFrom coreC7 (1/1000) [0, 0]).2.2.1.length = coreC7.states ∧
      (viRunFrom coreC7 (1/1000) [0, 0]).2.2.2.length = coreC7.states ∧
      ∀ s, s < coreC7.states → (viRunFrom coreC7 (1/1000) [0, 0]).2.2.1.getD s 0 < coreC7.A) ∧
     ((gsRunFrom coreC7 3 (1/1000) [0, 0]).2.2.length = coreC7.states ∧
      (gsRunFrom coreC7 3 (1/1000) [0, 0]).2.1.length = coreC7.states ∧
      ∀ s, s < coreC7.states → (gsRunFrom coreC7 3 (1/1000) [0, 0]).2.2.getD s 0 < coreC7.A) ∧
     (∃ reason iters polF VF, piRunFrom coreC7 [0, 1] = .ok (reason, iters, polF, VF) ∧
       polF.length = coreC7.states ∧ VF.length = coreC7.states ∧
       ∀ s, s < coreC7.states → polF.getD s 0 < coreC7.A)) :=
  ⟨by decide, by decide, by decide,
    c7_output_shapes coreC7 (by decide) (by decide) (by decide) (by decide)
      (1/1000) [0, 0] (by decide) [0, 1] (by decide) (by decide) 3⟩
